import Mathlib

/-!
Verification of the `enhance-article.py` transform: a shallow embedding of
the script's JSON data model, its static `SECTION_METADATA` table, and the
section-enhancement loop, with theorems about the claims of the spec.
-/

/-- JSON values as read and written by the script.  Objects are ordered
association lists, matching Python dict insertion order; numbers in the
script are all integers. -/
inductive Json where
  | null : Json
  | bool (b : Bool) : Json
  | num (n : Int) : Json
  | str (s : String) : Json
  | arr (elems : List Json) : Json
  | obj (fields : List (String × Json)) : Json

/-- Python dict lookup `d[key]` on an ordered association list (first
binding wins; dict keys are unique so at most one binding exists). -/
def getKey {α : Type} : List (String × α) → String → Option α
  | [], _ => none
  | (k, v) :: rest, key => if k = key then some v else getKey rest key

/-- Python membership test `key in d`. -/
def hasKey {α : Type} (fields : List (String × α)) (key : String) : Bool :=
  (getKey fields key).isSome

/-- Python dict assignment `d[key] = val`: overwrites in place when the key
exists (keeping its position), otherwise appends the new binding. -/
def setKey {α : Type} : List (String × α) → String → α → List (String × α)
  | [], key, val => [(key, val)]
  | (k, v) :: rest, key, val =>
    if k = key then (key, val) :: rest else (k, v) :: setKey rest key val

/-- A JSON array of strings (used for the tag and key-takeaway lists of the
table). -/
def strs (ts : List String) : Json :=
  .arr (ts.map .str)

/-- The static section-metadata table of the script: a dict from section id
to a dict of metadata fields. -/
def SECTION_METADATA : List (String × List (String × Json)) := [
  ("visual-abstract", [
    ("estimatedReadingTime", .num 5),
    ("tags", strs ["overview", "introduction", "conceptual"]),
    ("type", .str "visual-abstract")
  ]),
  ("executive-summaries", [
    ("estimatedReadingTime", .num 10),
    ("tags", strs ["summary", "overview", "accessible"])
  ]),
  ("reading-guide", [
    ("estimatedReadingTime", .num 5),
    ("tags", strs ["navigation", "guide", "overview"])
  ]),
  ("glossary", [
    ("estimatedReadingTime", .num 15),
    ("tags", strs ["reference", "definitions", "terminology"]),
    ("type", .str "glossary")
  ]),
  ("chapter-1", [
    ("chapterNumber", .num 1),
    ("partNumber", .num 1),
    ("estimatedReadingTime", .num 25),
    ("tags", strs ["foundations", "philosophy", "examples", "introduction"]),
    ("keyTakeaways", strs [
      "Persistence asks \x27what prevents things from continuing\x27 rather than \x27why does order emerge\x27",
      "Stable configurations naturally outlast unstable ones",
      "The universe edits instability rather than constructs complexity",
      "The persistence principle appears in everyday phenomena"
    ])
  ]),
  ("chapter-2", [
    ("chapterNumber", .num 2),
    ("partNumber", .num 1),
    ("estimatedReadingTime", .num 30),
    ("tags", strs ["physics", "quantum mechanics", "metaphor", "critical analysis"]),
    ("keyTakeaways", strs [
      "Real interference requires Hilbert space, superposition, and phase coherence",
      "Most metaphorical uses of \x27interference\x27 lack mathematical rigor",
      "Brain waves are legitimate waves; market \x27interference\x27 is just competition"
    ]),
    ("references", .arr [.obj [
      ("id", .str "feynman-2006"),
      ("number", .num 1),
      ("text", .str "Feynman, R. P. (2006). QED: The Strange Theory of Light and Matter. Princeton University Press.")
    ]])
  ]),
  ("chapter-3", [
    ("chapterNumber", .num 3),
    ("partNumber", .num 2),
    ("estimatedReadingTime", .num 35),
    ("tags", strs ["theory", "axioms", "principles", "analogies"]),
    ("keyTakeaways", strs [
      "Conservation laws ensure substrate persistence",
      "Differential persistence: stable things last longer",
      "Persistence is a passive property, not an active force"
    ])
  ]),
  ("chapter-4", [
    ("chapterNumber", .num 4),
    ("partNumber", .num 2),
    ("estimatedReadingTime", .num 30),
    ("tags", strs ["worldview", "philosophy", "comparison", "paradigm shift"]),
    ("keyTakeaways", strs [
      "Construction view asks \x27why does order emerge?\x27",
      "Persistence view asks \x27what prevents continuation?\x27",
      "Similar to Copernican and Darwinian revolutions"
    ])
  ]),
  ("chapter-5", [
    ("chapterNumber", .num 5),
    ("partNumber", .num 3),
    ("estimatedReadingTime", .num 35),
    ("tags", strs ["AI", "deep learning", "neural networks", "machine learning"]),
    ("keyTakeaways", strs [
      "Loss landscapes have large connected basins (mode connectivity)",
      "Training doesn\x27t construct solutions, it finds persistent states",
      "AI safety is about attractor engineering"
    ]),
    ("references", .arr [
      .obj [
        ("id", .str "garipov-2018"),
        ("number", .num 1),
        ("text", .str "Garipov, T., et al. (2018). Loss surfaces, mode connectivity, and fast ensembling of DNNs.")
      ],
      .obj [
        ("id", .str "li-2018"),
        ("number", .num 2),
        ("text", .str "Li, H., et al. (2018). Visualizing the Loss Landscape of Neural Nets.")
      ]
    ])
  ]),
  ("chapter-6", [
    ("chapterNumber", .num 6),
    ("partNumber", .num 3),
    ("estimatedReadingTime", .num 25),
    ("tags", strs ["evolution", "biology", "LTEE", "natural selection"]),
    ("keyTakeaways", strs [
      "Evolution is persistence in action: stable forms survive",
      "LTEE shows power-law fitness improvements",
      "Life origin: What stops self-sustaining reactions from continuing?"
    ]),
    ("references", .arr [.obj [
      ("id", .str "lenski-2023"),
      ("number", .num 1),
      ("text", .str "Lenski, R. E. (2023). The E. coli Long-Term Evolution Experiment.")
    ]])
  ]),
  ("chapter-7", [
    ("chapterNumber", .num 7),
    ("partNumber", .num 3),
    ("estimatedReadingTime", .num 25),
    ("tags", strs ["cosmology", "physics", "anthropic principle", "dark matter"]),
    ("keyTakeaways", strs [
      "Anthropic principle is survivor bias on cosmic scale",
      "Fine-tuning problem dissolves: we observe persistent configurations",
      "Simpler models (classical dark matter) likely more persistent"
    ]),
    ("references", .arr [.obj [
      ("id", .str "hui-2021"),
      ("number", .num 1),
      ("text", .str "Hui, L. (2021). Wave Dark Matter. Annual Review of Astronomy and Astrophysics.")
    ]])
  ]),
  ("chapter-8", [
    ("chapterNumber", .num 8),
    ("partNumber", .num 4),
    ("estimatedReadingTime", .num 30),
    ("tags", strs ["critique", "physics envy", "pseudoscience", "methodology"]),
    ("keyTakeaways", strs [
      "Physics envy: inappropriate importation of physics concepts",
      "Quantum mind fails: brain too warm and wet for quantum effects",
      "Economic \x27quantum\x27 models lack predictive power"
    ])
  ]),
  ("chapter-9", [
    ("chapterNumber", .num 9),
    ("partNumber", .num 4),
    ("estimatedReadingTime", .num 40),
    ("tags", strs ["FAQ", "objections", "defense", "philosophy of science"]),
    ("keyTakeaways", strs [
      "Semantics matter: words guide research programs",
      "Persistence unifies attractor dynamics, SOC, natural selection",
      "Conservation laws may be more fundamental than Schrödinger equation"
    ])
  ]),
  ("chapter-10", [
    ("chapterNumber", .num 10),
    ("partNumber", .num 5),
    ("estimatedReadingTime", .num 25),
    ("tags", strs ["toolkit", "practical", "application", "methodology"]),
    ("keyTakeaways", strs [
      "Identify what persists, transformation operators, attractors",
      "To change a state: make it less persistent or create deeper attractor",
      "Avoid confusing persistence with desirability"
    ]),
    ("exercises", .arr [.obj [
      ("id", .str "persistence-worksheet"),
      ("type", .str "worksheet"),
      ("title", .str "Persistence Analysis Worksheet"),
      ("difficulty", .str "orange"),
      ("description", .str "Apply the persistence framework to analyze a system")
    ]])
  ]),
  ("chapter-11", [
    ("chapterNumber", .num 11),
    ("partNumber", .num 5),
    ("estimatedReadingTime", .num 20),
    ("tags", strs ["resources", "bibliography", "further reading"]),
    ("keyTakeaways", strs [
      "Key resources: Gleick\x27s Chaos, Kauffman\x27s At Home in the Universe",
      "Interactive tools: PhET simulations, 3Blue1Brown videos",
      "Santa Fe Institute: leading center for complexity science"
    ])
  ]),
  ("appendices", [
    ("estimatedReadingTime", .num 30),
    ("tags", strs ["technical", "mathematics", "advanced"]),
    ("type", .str "appendix")
  ]),
  ("bibliography", [
    ("estimatedReadingTime", .num 20),
    ("tags", strs ["references", "citations", "resources"]),
    ("type", .str "bibliography")
  ])
]

/-- The constant document-level `metadata` record of the enhanced envelope. -/
def docMetadata : Json := .obj [
  ("authors", .arr [.obj [
    ("name", .str "Manus AI"),
    ("role", .str "Author")
  ]]),
  ("created", .str "2025-11-18T00:00:00Z"),
  ("lastModified", .str "2025-11-18T00:00:00Z"),
  ("keywords", strs [
    "persistence", "complexity science", "interference",
    "evolution", "artificial intelligence", "cosmology",
    "philosophy of science", "differential stability",
    "attractor dynamics", "emergent systems"
  ]),
  ("description", .str "A fundamental reframing of how we understand order in the universe, proposing that stable configurations persist rather than being actively constructed through emergence."),
  ("language", .str "en"),
  ("subject", strs ["Physics", "Biology", "Computer Science", "Philosophy"])
]

/-- The constant document-level `settings` record of the enhanced envelope. -/
def docSettings : Json := .obj [
  ("theme", .str "light"),
  ("fontSize", .str "medium"),
  ("showDifficulty", .bool true),
  ("showEstimatedTime", .bool true),
  ("enableNavigation", .bool true),
  ("enableSearch", .bool true)
]

/-- The membership test `section_id in SECTION_METADATA`.  A Python dict
membership test hashes its operand first: a string id is looked up among
the keys, any other hashable id (null, a boolean, a number) is simply not
a member, and an unhashable id (a list or a dict) raises TypeError.
`none` models that TypeError, `some none` a completed test with no match,
and `some (some md)` a hit on the entry `md`. -/
def lookupMeta : Json → Option (Option (List (String × Json)))
  | .str s => some (getKey SECTION_METADATA s)
  | .null => some none
  | .bool _ => some none
  | .num _ => some none
  | .arr _ => none
  | .obj _ => none

/-- `if key in md: fields[key] = md[key]` — copy one optional table field
onto the section. -/
def copyOpt (md : List (String × Json)) (key : String)
    (fields : List (String × Json)) : List (String × Json) :=
  match getKey md key with
  | some v => setKey fields key v
  | none => fields

/-- `if "chapterNumber" in md:` — set `type` to `"chapter"` and copy the
chapter number. -/
def chapterStep (md fields : List (String × Json)) : List (String × Json) :=
  match getKey md "chapterNumber" with
  | some v => setKey (setKey fields "type" (.str "chapter")) "chapterNumber" v
  | none => fields

/-- The first three merge steps in source order: chapter number (with the
`"chapter"` type default), part number, then the explicit type override. -/
def preSteps (md fields : List (String × Json)) : List (String × Json) :=
  copyOpt md "type" (copyOpt md "partNumber" (chapterStep md fields))

/-- `if "metadata" not in enhanced_section: enhanced_section["metadata"] = {}`. -/
def ensureMetaKey (fields : List (String × Json)) : List (String × Json) :=
  if hasKey fields "metadata" then fields else setKey fields "metadata" (.obj [])

/-- The last merge steps in source order: write the mandatory reading time
and tags into the nested metadata record `m`, then copy the optional key
takeaways, references and exercises. -/
def postSteps (md f4 m : List (String × Json)) (ert tg : Json) : List (String × Json) :=
  copyOpt md "exercises" (copyOpt md "references" (copyOpt md "keyTakeaways"
    (setKey f4 "metadata" (.obj (setKey (setKey m "estimatedReadingTime" ert) "tags" tg)))))

/-- The body of the `if section_id in SECTION_METADATA:` branch: merge the
table entry `md` into the section's fields, in source order.  `none` models
an uncaught Python exception (a missing mandatory table field, or an
existing non-record `metadata` value). -/
def mergeMeta (md fields : List (String × Json)) : Option (List (String × Json)) :=
  match getKey (ensureMetaKey (preSteps md fields)) "metadata",
      getKey md "estimatedReadingTime", getKey md "tags" with
  | some (.obj m), some ert, some tg =>
    some (postSteps md (ensureMetaKey (preSteps md fields)) m ert tg)
  | _, _, _ => none

/-- One iteration of the section loop: copy the section, run the
membership test on its id and merge the entry when present.  `none` models
an uncaught Python exception (a non-record section, a missing `id` key, an
unhashable id value at the membership test, or a failing merge). -/
def enhanceSection (sec : Json) : Option Json :=
  match sec with
  | .obj fields =>
    match getKey fields "id" with
    | none => none
    | some idVal =>
      match lookupMeta idVal with
      | none => none
      | some none => some (.obj fields)
      | some (some md) => (mergeMeta md fields).map .obj
  | _ => none

/-- Run a fallible step over a list, stopping at the first failure — the
shape of the section loop, which appends one result per iteration and
aborts the run on the first exception. -/
def mapOption {α β : Type} (f : α → Option β) : List α → Option (List β)
  | [] => some []
  | x :: xs =>
    match f x, mapOption f xs with
    | some y, some ys => some (y :: ys)
    | _, _ => none

/-- The whole transform on the in-memory document: build the enhanced
envelope (title, version, document metadata, settings) and process each
section.  `none` models an uncaught Python exception (a non-record
document, missing `title` or `sections`, a non-list `sections`, or a
failing section). -/
def enhanceArticle (article : Json) : Option Json :=
  match article with
  | .obj fields =>
    match getKey fields "title", getKey fields "sections" with
    | some title, some (.arr secs) =>
      (mapOption enhanceSection secs).map fun outSecs =>
        .obj [
          ("title", title),
          ("version", .str "1.0"),
          ("metadata", docMetadata),
          ("settings", docSettings),
          ("sections", .arr outSecs)
        ]
    | _, _ => none
  | _ => none

/-- The file interface of the script, transcribed from its `open` and
`json.dump` calls. -/
structure FileInterface where
  readPath : String
  writePath : String
  indent : Nat
  ensureAscii : Bool

/-- `open("article.json", "r")` / `open("article.json", "w")` /
`json.dump(enhanced, f, indent=2, ensure_ascii=False)`. -/
def scriptFileInterface : FileInterface :=
  { readPath := "article.json"
    writePath := "article.json"
    indent := 2
    ensureAscii := false }

/-! ### Dictionary lemmas -/

theorem getKey_setKey_self {α : Type} (f : List (String × α)) (k : String) (v : α) :
    getKey (setKey f k v) k = some v := by
  induction f with
  | nil => simp [setKey, getKey]
  | cons p rest ih =>
    obtain ⟨k0, v0⟩ := p
    by_cases h : k0 = k
    · simp [setKey, getKey, h]
    · simp [setKey, getKey, h, ih]

theorem getKey_setKey_ne {α : Type} (f : List (String × α)) {k k2 : String} (v : α)
    (h : k ≠ k2) : getKey (setKey f k v) k2 = getKey f k2 := by
  induction f with
  | nil => simp [setKey, getKey, h]
  | cons p rest ih =>
    obtain ⟨k0, v0⟩ := p
    by_cases h0 : k0 = k
    · subst h0
      simp [setKey, getKey, h]
    · simp [setKey, getKey, h0, ih]

theorem setKey_eq_of_getKey_eq {α : Type} {f : List (String × α)} {k : String} {v : α}
    (h : getKey f k = some v) : setKey f k v = f := by
  induction f with
  | nil => simp [getKey] at h
  | cons p rest ih =>
    obtain ⟨k0, v0⟩ := p
    by_cases h0 : k0 = k
    · subst h0
      simp [getKey] at h
      simp [setKey, h]
    · simp [getKey, h0] at h
      simp [setKey, h0, ih h]

theorem setKey_setKey_same {α : Type} (f : List (String × α)) (k : String) (a b : α) :
    setKey (setKey f k a) k b = setKey f k b := by
  induction f with
  | nil => simp [setKey]
  | cons p rest ih =>
    obtain ⟨k0, v0⟩ := p
    by_cases h0 : k0 = k
    · simp [setKey, h0]
    · simp [setKey, h0, ih]

theorem hasKey_setKey_of_hasKey {α : Type} {f : List (String × α)} {k2 : String}
    (k : String) (v : α) (h : hasKey f k2) : hasKey (setKey f k v) k2 := by
  by_cases hk : k = k2
  · subst hk
    simp [hasKey, getKey_setKey_self]
  · simpa [hasKey, getKey_setKey_ne f v hk] using h

theorem getKey_mem {α : Type} {f : List (String × α)} {k : String} {v : α}
    (h : getKey f k = some v) : (k, v) ∈ f := by
  induction f with
  | nil => simp [getKey] at h
  | cons p rest ih =>
    obtain ⟨k0, v0⟩ := p
    by_cases h0 : k0 = k
    · subst h0
      simp [getKey] at h
      simp [h]
    · simp [getKey, h0] at h
      simp [ih h]

/-! ### Stage lemmas -/

theorem copyOpt_getKey_ne {md : List (String × Json)} (key : String)
    {f : List (String × Json)} {k : String} (h : key ≠ k) :
    getKey (copyOpt md key f) k = getKey f k := by
  unfold copyOpt
  cases hm : getKey md key with
  | none => rfl
  | some v => exact getKey_setKey_ne f v h

theorem copyOpt_getKey_some {md : List (String × Json)} {key : String}
    (f : List (String × Json)) {v : Json} (h : getKey md key = some v) :
    getKey (copyOpt md key f) key = some v := by
  unfold copyOpt
  rw [h]
  exact getKey_setKey_self f key v

theorem copyOpt_of_none {md : List (String × Json)} {key : String}
    (f : List (String × Json)) (h : getKey md key = none) :
    copyOpt md key f = f := by
  unfold copyOpt
  rw [h]

theorem copyOpt_hasKey_of_hasKey {md : List (String × Json)} (key : String)
    {f : List (String × Json)} {k : String} (h : hasKey f k) :
    hasKey (copyOpt md key f) k := by
  unfold copyOpt
  cases hm : getKey md key with
  | none => exact h
  | some v => exact hasKey_setKey_of_hasKey key v h

theorem chapterStep_getKey_ne {md fields : List (String × Json)} {k : String}
    (ht : k ≠ "type") (hc : k ≠ "chapterNumber") :
    getKey (chapterStep md fields) k = getKey fields k := by
  unfold chapterStep
  cases hm : getKey md "chapterNumber" with
  | none => rfl
  | some v =>
    rw [getKey_setKey_ne _ v (Ne.symm hc), getKey_setKey_ne _ _ (Ne.symm ht)]

theorem chapterStep_hasKey_of_hasKey {md fields : List (String × Json)} {k : String}
    (h : hasKey fields k) : hasKey (chapterStep md fields) k := by
  unfold chapterStep
  cases hm : getKey md "chapterNumber" with
  | none => exact h
  | some v => exact hasKey_setKey_of_hasKey _ v (hasKey_setKey_of_hasKey _ _ h)

theorem preSteps_getKey_ne {md fields : List (String × Json)} {k : String}
    (ht : k ≠ "type") (hc : k ≠ "chapterNumber") (hp : k ≠ "partNumber") :
    getKey (preSteps md fields) k = getKey fields k := by
  unfold preSteps
  rw [copyOpt_getKey_ne _ (Ne.symm ht), copyOpt_getKey_ne _ (Ne.symm hp),
    chapterStep_getKey_ne ht hc]

theorem preSteps_hasKey_of_hasKey {md fields : List (String × Json)} {k : String}
    (h : hasKey fields k) : hasKey (preSteps md fields) k :=
  copyOpt_hasKey_of_hasKey _ (copyOpt_hasKey_of_hasKey _ (chapterStep_hasKey_of_hasKey h))

theorem ensureMetaKey_getKey_ne {fields : List (String × Json)} {k : String}
    (h : k ≠ "metadata") : getKey (ensureMetaKey fields) k = getKey fields k := by
  unfold ensureMetaKey
  by_cases hm : hasKey fields "metadata"
  · simp [hm]
  · simp [hm, getKey_setKey_ne fields _ (Ne.symm h)]

theorem ensureMetaKey_getKey_of_some {fields : List (String × Json)} {v : Json}
    (h : getKey fields "metadata" = some v) :
    getKey (ensureMetaKey fields) "metadata" = some v := by
  unfold ensureMetaKey
  have : hasKey fields "metadata" := by simp [hasKey, h]
  simp [this, h]

theorem ensureMetaKey_getKey_of_none {fields : List (String × Json)}
    (h : getKey fields "metadata" = none) :
    getKey (ensureMetaKey fields) "metadata" = some (.obj []) := by
  unfold ensureMetaKey
  have : ¬ hasKey fields "metadata" := by simp [hasKey, h]
  simp [this, getKey_setKey_self]

theorem ensureMetaKey_hasKey_of_hasKey {fields : List (String × Json)} {k : String}
    (h : hasKey fields k) : hasKey (ensureMetaKey fields) k := by
  unfold ensureMetaKey
  by_cases hm : hasKey fields "metadata"
  · simp [hm, h]
  · simp [hm, hasKey_setKey_of_hasKey _ _ h]

theorem postSteps_getKey_ne {md f4 m : List (String × Json)} {ert tg : Json} {k : String}
    (he : k ≠ "exercises") (hr : k ≠ "references") (hk : k ≠ "keyTakeaways")
    (hm : k ≠ "metadata") :
    getKey (postSteps md f4 m ert tg) k = getKey f4 k := by
  unfold postSteps
  rw [copyOpt_getKey_ne _ (Ne.symm he), copyOpt_getKey_ne _ (Ne.symm hr),
    copyOpt_getKey_ne _ (Ne.symm hk), getKey_setKey_ne _ _ (Ne.symm hm)]

theorem postSteps_getKey_metadata {md f4 m : List (String × Json)} {ert tg : Json} :
    getKey (postSteps md f4 m ert tg) "metadata"
      = some (.obj (setKey (setKey m "estimatedReadingTime" ert) "tags" tg)) := by
  unfold postSteps
  rw [copyOpt_getKey_ne _ (by decide), copyOpt_getKey_ne _ (by decide),
    copyOpt_getKey_ne _ (by decide), getKey_setKey_self]

theorem postSteps_hasKey_of_hasKey {md f4 m : List (String × Json)} {ert tg : Json}
    {k : String} (h : hasKey f4 k) : hasKey (postSteps md f4 m ert tg) k :=
  copyOpt_hasKey_of_hasKey _ (copyOpt_hasKey_of_hasKey _ (copyOpt_hasKey_of_hasKey _
    (hasKey_setKey_of_hasKey _ _ h)))

/-- Inversion of a successful merge: the mandatory table fields were
present, the (possibly freshly created) nested metadata record is a record,
and the output is the full stage composition. -/
theorem mergeMeta_inv {md fields out : List (String × Json)}
    (h : mergeMeta md fields = some out) :
    ∃ m ert tg,
      getKey (ensureMetaKey (preSteps md fields)) "metadata" = some (.obj m) ∧
      getKey md "estimatedReadingTime" = some ert ∧
      getKey md "tags" = some tg ∧
      out = postSteps md (ensureMetaKey (preSteps md fields)) m ert tg := by
  unfold mergeMeta at h
  cases hm : getKey (ensureMetaKey (preSteps md fields)) "metadata" with
  | none => rw [hm] at h; exact absurd h (by simp)
  | some mv =>
    rw [hm] at h
    cases he : getKey md "estimatedReadingTime" with
    | none => rw [he] at h; cases mv <;> simp at h
    | some ert =>
      rw [he] at h
      cases ht : getKey md "tags" with
      | none => rw [ht] at h; cases mv <;> simp at h
      | some tg =>
        rw [ht] at h
        cases mv with
        | obj m =>
          simp at h
          exact ⟨m, ert, tg, rfl, rfl, rfl, h.symm⟩
        | null => simp at h
        | bool b => simp at h
        | num n => simp at h
        | str s => simp at h
        | arr es => simp at h

/-! ### Loop lemmas -/

theorem mapOption_cons_inv {α β : Type} {f : α → Option β} {x : α} {xs : List α}
    {out : List β} (h : mapOption f (x :: xs) = some out) :
    ∃ y ys, f x = some y ∧ mapOption f xs = some ys ∧ out = y :: ys := by
  unfold mapOption at h
  cases hx : f x with
  | none => rw [hx] at h; simp at h
  | some y =>
    rw [hx] at h
    cases hxs : mapOption f xs with
    | none => rw [hxs] at h; simp at h
    | some ys =>
      rw [hxs] at h
      simp at h
      exact ⟨y, ys, rfl, rfl, h.symm⟩

theorem mapOption_length {α β : Type} {f : α → Option β} {xs : List α} {ys : List β}
    (h : mapOption f xs = some ys) : ys.length = xs.length := by
  induction xs generalizing ys with
  | nil =>
    unfold mapOption at h
    simp at h
    subst h
    rfl
  | cons x xs ih =>
    obtain ⟨y, ys2, hx, hxs, rfl⟩ := mapOption_cons_inv h
    simp [ih hxs]

theorem mapOption_get {α β : Type} {f : α → Option β} {xs : List α} {ys : List β}
    (h : mapOption f xs = some ys) :
    ∀ i (hi : i < xs.length) (hj : i < ys.length),
      f (xs.get ⟨i, hi⟩) = some (ys.get ⟨i, hj⟩) := by
  induction xs generalizing ys with
  | nil => intro i hi hj; simp at hi
  | cons x xs ih =>
    obtain ⟨y, ys2, hx, hxs, rfl⟩ := mapOption_cons_inv h
    intro i hi hj
    cases i with
    | zero => simpa using hx
    | succ n =>
      simpa using ih hxs n (by simpa using hi) (by simpa using hj)

theorem mapOption_isSome {α β : Type} {f : α → Option β} {xs : List α}
    (h : ∀ x ∈ xs, (f x).isSome) : (mapOption f xs).isSome := by
  induction xs with
  | nil => simp [mapOption]
  | cons x xs ih =>
    obtain ⟨y, hy⟩ := Option.isSome_iff_exists.mp (h x (by simp))
    obtain ⟨ys, hys⟩ := Option.isSome_iff_exists.mp (ih fun z hz => h z (by simp [hz]))
    simp [mapOption, hy, hys]

theorem mapOption_none_of_mem {α β : Type} {f : α → Option β} {xs : List α} {x : α}
    (hx : x ∈ xs) (hf : f x = none) : mapOption f xs = none := by
  induction xs with
  | nil => simp at hx
  | cons z zs ih =>
    rcases List.mem_cons.mp hx with rfl | hmem
    · simp [mapOption, hf]
    · unfold mapOption
      rw [ih hmem]
      cases f z <;> rfl

theorem mapOption_fix {α : Type} {f : α → Option α}
    (hf : ∀ x y, f x = some y → f y = some y) {xs ys : List α}
    (h : mapOption f xs = some ys) : mapOption f ys = some ys := by
  induction xs generalizing ys with
  | nil =>
    unfold mapOption at h
    simp at h
    subst h
    rfl
  | cons x xs ih =>
    obtain ⟨y, ys2, hx, hxs, rfl⟩ := mapOption_cons_inv h
    simp [mapOption, hf x y hx, ih hxs]

/-! ### Transform inversion lemmas -/

theorem enhanceSection_unmatched {fields : List (String × Json)} {idVal : Json}
    (hid : getKey fields "id" = some idVal) (hmd : lookupMeta idVal = some none) :
    enhanceSection (.obj fields) = some (.obj fields) := by
  unfold enhanceSection
  dsimp only
  rw [hid]
  dsimp only
  rw [hmd]

/-- An unhashable id value makes the membership test raise, aborting the
iteration. -/
theorem enhanceSection_unhashable {fields : List (String × Json)} {idVal : Json}
    (hid : getKey fields "id" = some idVal) (hmd : lookupMeta idVal = none) :
    enhanceSection (.obj fields) = none := by
  unfold enhanceSection
  dsimp only
  rw [hid]
  dsimp only
  rw [hmd]

theorem enhanceSection_matched {fields : List (String × Json)} {idVal : Json}
    {md : List (String × Json)} {out : Json}
    (hid : getKey fields "id" = some idVal) (hmd : lookupMeta idVal = some (some md))
    (h : enhanceSection (.obj fields) = some out) :
    ∃ g, mergeMeta md fields = some g ∧ out = .obj g := by
  unfold enhanceSection at h
  dsimp only at h
  rw [hid] at h
  dsimp only at h
  rw [hmd] at h
  dsimp only at h
  cases hg : mergeMeta md fields with
  | none => rw [hg] at h; simp at h
  | some g =>
    rw [hg] at h
    simp at h
    exact ⟨g, rfl, h.symm⟩

theorem enhanceArticle_inv {fields : List (String × Json)} {out : Json}
    (h : enhanceArticle (.obj fields) = some out) :
    ∃ title inSecs outSecs,
      getKey fields "title" = some title ∧
      getKey fields "sections" = some (.arr inSecs) ∧
      mapOption enhanceSection inSecs = some outSecs ∧
      out = .obj [
        ("title", title),
        ("version", .str "1.0"),
        ("metadata", docMetadata),
        ("settings", docSettings),
        ("sections", .arr outSecs)
      ] := by
  unfold enhanceArticle at h
  dsimp only at h
  cases htitle : getKey fields "title" with
  | none => rw [htitle] at h; simp at h
  | some title =>
    rw [htitle] at h
    cases hsec : getKey fields "sections" with
    | none => rw [hsec] at h; simp at h
    | some sv =>
      rw [hsec] at h
      cases sv with
      | arr inSecs =>
        dsimp only at h
        cases hmap : mapOption enhanceSection inSecs with
        | none => rw [hmap] at h; simp at h
        | some outSecs =>
          rw [hmap] at h
          simp at h
          exact ⟨title, inSecs, outSecs, rfl, rfl, hmap, h.symm⟩
      | null => simp at h
      | bool b => simp at h
      | num n => simp at h
      | str s => simp at h
      | obj g => simp at h

theorem copyOpt_eq_self {md f : List (String × Json)} {key : String}
    (h : ∀ v, getKey md key = some v → getKey f key = some v) :
    copyOpt md key f = f := by
  unfold copyOpt
  cases hm : getKey md key with
  | none => rfl
  | some v => exact setKey_eq_of_getKey_eq (h v hm)

theorem chapterStep_getKey_chapterNumber {md fields : List (String × Json)} {c : Json}
    (hc : getKey md "chapterNumber" = some c) :
    getKey (chapterStep md fields) "chapterNumber" = some c := by
  unfold chapterStep
  rw [hc]
  exact getKey_setKey_self _ _ _

theorem chapterStep_getKey_type_default {md fields : List (String × Json)} {c : Json}
    (hc : getKey md "chapterNumber" = some c) :
    getKey (chapterStep md fields) "type" = some (.str "chapter") := by
  unfold chapterStep
  rw [hc, getKey_setKey_ne _ _ (by decide)]
  exact getKey_setKey_self _ _ _

theorem mergeMeta_getKey_ne {md fields out : List (String × Json)} {k : String}
    (h : mergeMeta md fields = some out)
    (h1 : k ≠ "type") (h2 : k ≠ "chapterNumber") (h3 : k ≠ "partNumber")
    (h4 : k ≠ "metadata") (h5 : k ≠ "keyTakeaways") (h6 : k ≠ "references")
    (h7 : k ≠ "exercises") : getKey out k = getKey fields k := by
  obtain ⟨m, ert, tg, hm, he, ht, rfl⟩ := mergeMeta_inv h
  rw [postSteps_getKey_ne h7 h6 h5 h4, ensureMetaKey_getKey_ne h4,
    preSteps_getKey_ne h1 h2 h3]

/-- A successful merge leaves the optional table fields on the output
whenever the entry defines them. -/
theorem mergeMeta_getKey_partNumber {md fields out : List (String × Json)} {v : Json}
    (h : mergeMeta md fields = some out) (hv : getKey md "partNumber" = some v) :
    getKey out "partNumber" = some v := by
  obtain ⟨m, ert, tg, hm, he, ht, rfl⟩ := mergeMeta_inv h
  rw [postSteps_getKey_ne (by decide) (by decide) (by decide) (by decide),
    ensureMetaKey_getKey_ne (by decide)]
  unfold preSteps
  rw [copyOpt_getKey_ne _ (by decide)]
  exact copyOpt_getKey_some _ hv

theorem mergeMeta_getKey_keyTakeaways {md fields out : List (String × Json)} {v : Json}
    (h : mergeMeta md fields = some out) (hv : getKey md "keyTakeaways" = some v) :
    getKey out "keyTakeaways" = some v := by
  obtain ⟨m, ert, tg, hm, he, ht, rfl⟩ := mergeMeta_inv h
  unfold postSteps
  rw [copyOpt_getKey_ne _ (by decide), copyOpt_getKey_ne _ (by decide)]
  exact copyOpt_getKey_some _ hv

theorem mergeMeta_getKey_references {md fields out : List (String × Json)} {v : Json}
    (h : mergeMeta md fields = some out) (hv : getKey md "references" = some v) :
    getKey out "references" = some v := by
  obtain ⟨m, ert, tg, hm, he, ht, rfl⟩ := mergeMeta_inv h
  unfold postSteps
  rw [copyOpt_getKey_ne _ (by decide)]
  exact copyOpt_getKey_some _ hv

theorem mergeMeta_getKey_exercises {md fields out : List (String × Json)} {v : Json}
    (h : mergeMeta md fields = some out) (hv : getKey md "exercises" = some v) :
    getKey out "exercises" = some v := by
  obtain ⟨m, ert, tg, hm, he, ht, rfl⟩ := mergeMeta_inv h
  unfold postSteps
  exact copyOpt_getKey_some _ hv

theorem mergeMeta_getKey_chapterNumber {md fields out : List (String × Json)} {c : Json}
    (h : mergeMeta md fields = some out) (hc : getKey md "chapterNumber" = some c) :
    getKey out "chapterNumber" = some c := by
  obtain ⟨m, ert, tg, hm, he, ht, rfl⟩ := mergeMeta_inv h
  rw [postSteps_getKey_ne (by decide) (by decide) (by decide) (by decide),
    ensureMetaKey_getKey_ne (by decide)]
  unfold preSteps
  rw [copyOpt_getKey_ne _ (by decide), copyOpt_getKey_ne _ (by decide)]
  exact chapterStep_getKey_chapterNumber hc

theorem mergeMeta_getKey_type_override {md fields out : List (String × Json)} {ty : Json}
    (h : mergeMeta md fields = some out) (hty : getKey md "type" = some ty) :
    getKey out "type" = some ty := by
  obtain ⟨m, ert, tg, hm, he, ht, rfl⟩ := mergeMeta_inv h
  rw [postSteps_getKey_ne (by decide) (by decide) (by decide) (by decide),
    ensureMetaKey_getKey_ne (by decide)]
  unfold preSteps
  exact copyOpt_getKey_some _ hty

theorem mergeMeta_getKey_type_default {md fields out : List (String × Json)} {c : Json}
    (h : mergeMeta md fields = some out) (hty : getKey md "type" = none)
    (hc : getKey md "chapterNumber" = some c) :
    getKey out "type" = some (.str "chapter") := by
  obtain ⟨m, ert, tg, hm, he, ht, rfl⟩ := mergeMeta_inv h
  rw [postSteps_getKey_ne (by decide) (by decide) (by decide) (by decide),
    ensureMetaKey_getKey_ne (by decide)]
  unfold preSteps
  rw [copyOpt_of_none _ hty, copyOpt_getKey_ne _ (by decide)]
  exact chapterStep_getKey_type_default hc

/-- A successful merge puts the entry's reading time and tags into the
nested metadata record, leaving its other sub-fields as they were. -/
theorem mergeMeta_metadata {md fields out : List (String × Json)}
    (h : mergeMeta md fields = some out) :
    ∃ m ert tg,
      getKey md "estimatedReadingTime" = some ert ∧
      getKey md "tags" = some tg ∧
      getKey (ensureMetaKey (preSteps md fields)) "metadata" = some (.obj m) ∧
      getKey out "metadata" = some (.obj (setKey (setKey m "estimatedReadingTime" ert) "tags" tg)) := by
  obtain ⟨m, ert, tg, hm, he, ht, rfl⟩ := mergeMeta_inv h
  exact ⟨m, ert, tg, he, ht, hm, postSteps_getKey_metadata⟩

theorem enhanceSection_obj_inv {fields : List (String × Json)} {out : Json}
    (h : enhanceSection (.obj fields) = some out) :
    ∃ idVal, getKey fields "id" = some idVal ∧
      ((lookupMeta idVal = some none ∧ out = .obj fields) ∨
        ∃ md g, lookupMeta idVal = some (some md) ∧ mergeMeta md fields = some g ∧
          out = .obj g) := by
  unfold enhanceSection at h
  dsimp only at h
  cases hid : getKey fields "id" with
  | none => rw [hid] at h; simp at h
  | some idVal =>
    rw [hid] at h
    dsimp only at h
    cases hmd : lookupMeta idVal with
    | none =>
      rw [hmd] at h
      simp at h
    | some o =>
      cases o with
      | none =>
        rw [hmd] at h
        simp at h
        exact ⟨idVal, rfl, Or.inl ⟨hmd, h.symm⟩⟩
      | some md =>
        rw [hmd] at h
        dsimp only at h
        cases hg : mergeMeta md fields with
        | none => rw [hg] at h; simp at h
        | some g =>
          rw [hg] at h
          simp at h
          exact ⟨idVal, rfl, Or.inr ⟨md, g, hmd, hg, h.symm⟩⟩

/-- Every entry of the static table defines both `estimatedReadingTime`
and `tags`. -/
theorem table_entry_mandatory :
    ∀ p ∈ SECTION_METADATA, hasKey p.2 "estimatedReadingTime" ∧ hasKey p.2 "tags" := by
  decide

/-- Hence the two unconditional lookups of the merge step succeed for any
matched id. -/
theorem lookupMeta_mandatory {idVal : Json} {md : List (String × Json)}
    (h : lookupMeta idVal = some (some md)) :
    (getKey md "estimatedReadingTime").isSome ∧ (getKey md "tags").isSome := by
  cases idVal with
  | str s =>
    unfold lookupMeta at h
    exact table_entry_mandatory (s, md) (getKey_mem (Option.some.inj h))
  | null => exact Option.noConfusion (Option.some.inj h)
  | bool b => exact Option.noConfusion (Option.some.inj h)
  | num n => exact Option.noConfusion (Option.some.inj h)
  | arr es => exact Option.noConfusion h
  | obj g => exact Option.noConfusion h

/-! ### Idempotence lemmas: the transform is a fixpoint on its own output -/

/-- Re-merging a table entry into an already-merged section is the
identity: every write either recreates the same binding in place or takes
the no-op branch. -/
theorem mergeMeta_fix {md fields out : List (String × Json)}
    (h : mergeMeta md fields = some out) : mergeMeta md out = some out := by
  obtain ⟨m, ert, tg, he, ht, hm4, hmOut⟩ := mergeMeta_metadata h
  have hm1e : getKey (setKey (setKey m "estimatedReadingTime" ert) "tags" tg)
      "estimatedReadingTime" = some ert := by
    rw [getKey_setKey_ne _ _ (by decide)]
    exact getKey_setKey_self _ _ _
  have hm1t : getKey (setKey (setKey m "estimatedReadingTime" ert) "tags" tg)
      "tags" = some tg := getKey_setKey_self _ _ _
  have hpre : preSteps md out = out := by
    unfold preSteps chapterStep
    cases hc : getKey md "chapterNumber" with
    | none =>
      rw [copyOpt_eq_self fun v hv => mergeMeta_getKey_partNumber h hv]
      exact copyOpt_eq_self fun v hv => mergeMeta_getKey_type_override h hv
    | some c =>
      dsimp only
      have h1 : getKey (setKey out "type" (.str "chapter")) "chapterNumber" = some c := by
        rw [getKey_setKey_ne _ _ (by decide)]
        exact mergeMeta_getKey_chapterNumber h hc
      rw [setKey_eq_of_getKey_eq h1]
      have h2 : copyOpt md "partNumber" (setKey out "type" (.str "chapter"))
          = setKey out "type" (.str "chapter") :=
        copyOpt_eq_self fun v hv => by
          rw [getKey_setKey_ne _ _ (by decide)]
          exact mergeMeta_getKey_partNumber h hv
      rw [h2]
      cases hty : getKey md "type" with
      | none =>
        rw [setKey_eq_of_getKey_eq (mergeMeta_getKey_type_default h hty hc)]
        exact copyOpt_of_none _ hty
      | some ty =>
        unfold copyOpt
        rw [hty]
        dsimp only
        rw [setKey_setKey_same]
        exact setKey_eq_of_getKey_eq (mergeMeta_getKey_type_override h hty)
  have hens : ensureMetaKey (preSteps md out) = preSteps md out := by
    unfold ensureMetaKey
    rw [hpre]
    simp [hasKey, hmOut]
  unfold mergeMeta
  rw [hens, hpre, hmOut, he, ht]
  dsimp only
  have hps : postSteps md out (setKey (setKey m "estimatedReadingTime" ert) "tags" tg)
      ert tg = out := by
    unfold postSteps
    rw [setKey_eq_of_getKey_eq hm1e, setKey_eq_of_getKey_eq hm1t,
      setKey_eq_of_getKey_eq hmOut]
    rw [copyOpt_eq_self fun v hv => mergeMeta_getKey_keyTakeaways h hv]
    rw [copyOpt_eq_self fun v hv => mergeMeta_getKey_references h hv]
    exact copyOpt_eq_self fun v hv => mergeMeta_getKey_exercises h hv
  rw [hps]

/-- Re-enhancing an already-enhanced section reproduces it. -/
theorem enhanceSection_fix {s t : Json} (h : enhanceSection s = some t) :
    enhanceSection t = some t := by
  cases s with
  | obj fields =>
    obtain ⟨idVal, hid, hcase⟩ := enhanceSection_obj_inv h
    rcases hcase with ⟨hmd, rfl⟩ | ⟨md, g, hmd, hg, rfl⟩
    · exact enhanceSection_unmatched hid hmd
    · have hidg : getKey g "id" = some idVal := by
        rw [mergeMeta_getKey_ne hg (by decide) (by decide) (by decide) (by decide)
          (by decide) (by decide) (by decide)]
        exact hid
      unfold enhanceSection
      dsimp only
      rw [hidg]
      dsimp only
      rw [hmd]
      dsimp only
      rw [mergeMeta_fix hg]
      rfl
  | null => exact Option.noConfusion h
  | bool b => exact Option.noConfusion h
  | num n => exact Option.noConfusion h
  | str s => exact Option.noConfusion h
  | arr es => exact Option.noConfusion h

/-- Re-running the whole transform on its own output reproduces the output
exactly: the envelope is rebuilt identically from the preserved title, and
every section is a fixpoint of re-enhancement. -/
theorem enhanceArticle_idem {a out : Json} (h : enhanceArticle a = some out) :
    enhanceArticle out = some out := by
  cases a with
  | obj fields =>
    obtain ⟨title, inSecs, outSecs, ht, hs, hmap, rfl⟩ := enhanceArticle_inv h
    have hfix := mapOption_fix (fun x y hxy => enhanceSection_fix hxy) hmap
    unfold enhanceArticle
    dsimp only
    have h1 : getKey [("title", title), ("version", Json.str "1.0"),
        ("metadata", docMetadata), ("settings", docSettings),
        ("sections", Json.arr outSecs)] "title" = some title := rfl
    have h2 : getKey [("title", title), ("version", Json.str "1.0"),
        ("metadata", docMetadata), ("settings", docSettings),
        ("sections", Json.arr outSecs)] "sections" = some (Json.arr outSecs) := rfl
    rw [h1, h2]
    dsimp only
    rw [hfix]
    rfl
  | null => exact Option.noConfusion h
  | bool b => exact Option.noConfusion h
  | num n => exact Option.noConfusion h
  | str s => exact Option.noConfusion h
  | arr es => exact Option.noConfusion h

/-! ### Claim theorems -/

/-- Claim C1: for every input section whose id is a key of the static
section-metadata table, the output section's nested metadata field holds
exactly the table entry's reading-time estimate and tag list, and each
optional field present in the entry (partNumber, keyTakeaways, references,
exercises) appears on the output section with exactly the entry's value. -/
theorem claim1_matched_section_exact_fields
    (fields md out : List (String × Json)) (s : String)
    (hid : getKey fields "id" = some (.str s))
    (htab : getKey SECTION_METADATA s = some md)
    (h : enhanceSection (.obj fields) = some (.obj out)) :
    (∃ m, getKey out "metadata" = some (.obj m) ∧
      getKey m "estimatedReadingTime" = getKey md "estimatedReadingTime" ∧
      getKey m "tags" = getKey md "tags") ∧
    (∀ v, getKey md "partNumber" = some v → getKey out "partNumber" = some v) ∧
    (∀ v, getKey md "keyTakeaways" = some v → getKey out "keyTakeaways" = some v) ∧
    (∀ v, getKey md "references" = some v → getKey out "references" = some v) ∧
    (∀ v, getKey md "exercises" = some v → getKey out "exercises" = some v) := by
  have hmd : lookupMeta (.str s) = some (some md) := by
    unfold lookupMeta
    dsimp only
    rw [htab]
  obtain ⟨g, hg, hout⟩ := enhanceSection_matched hid hmd h
  obtain rfl : out = g := by injection hout
  obtain ⟨m, ert, tg, he, ht, hm4, hmOut⟩ := mergeMeta_metadata hg
  refine ⟨⟨setKey (setKey m "estimatedReadingTime" ert) "tags" tg, hmOut, ?_, ?_⟩,
    fun v hv => mergeMeta_getKey_partNumber hg hv,
    fun v hv => mergeMeta_getKey_keyTakeaways hg hv,
    fun v hv => mergeMeta_getKey_references hg hv,
    fun v hv => mergeMeta_getKey_exercises hg hv⟩
  · rw [he, getKey_setKey_ne _ _ (by decide)]
    exact getKey_setKey_self _ _ _
  · rw [ht]
    exact getKey_setKey_self _ _ _

theorem claim1_witness :
    (∃ m, getKey [("id", Json.str "executive-summaries"),
        ("metadata", Json.obj [("estimatedReadingTime", Json.num 10),
          ("tags", strs ["summary", "overview", "accessible"])])] "metadata"
        = some (.obj m) ∧
      getKey m "estimatedReadingTime"
        = getKey [("estimatedReadingTime", Json.num 10),
            ("tags", strs ["summary", "overview", "accessible"])] "estimatedReadingTime" ∧
      getKey m "tags"
        = getKey [("estimatedReadingTime", Json.num 10),
            ("tags", strs ["summary", "overview", "accessible"])] "tags") ∧
    (∀ v, getKey [("estimatedReadingTime", Json.num 10),
        ("tags", strs ["summary", "overview", "accessible"])] "partNumber" = some v →
      getKey [("id", Json.str "executive-summaries"),
        ("metadata", Json.obj [("estimatedReadingTime", Json.num 10),
          ("tags", strs ["summary", "overview", "accessible"])])] "partNumber" = some v) ∧
    (∀ v, getKey [("estimatedReadingTime", Json.num 10),
        ("tags", strs ["summary", "overview", "accessible"])] "keyTakeaways" = some v →
      getKey [("id", Json.str "executive-summaries"),
        ("metadata", Json.obj [("estimatedReadingTime", Json.num 10),
          ("tags", strs ["summary", "overview", "accessible"])])] "keyTakeaways" = some v) ∧
    (∀ v, getKey [("estimatedReadingTime", Json.num 10),
        ("tags", strs ["summary", "overview", "accessible"])] "references" = some v →
      getKey [("id", Json.str "executive-summaries"),
        ("metadata", Json.obj [("estimatedReadingTime", Json.num 10),
          ("tags", strs ["summary", "overview", "accessible"])])] "references" = some v) ∧
    (∀ v, getKey [("estimatedReadingTime", Json.num 10),
        ("tags", strs ["summary", "overview", "accessible"])] "exercises" = some v →
      getKey [("id", Json.str "executive-summaries"),
        ("metadata", Json.obj [("estimatedReadingTime", Json.num 10),
          ("tags", strs ["summary", "overview", "accessible"])])] "exercises" = some v) :=
  claim1_matched_section_exact_fields
    [("id", Json.str "executive-summaries")]
    [("estimatedReadingTime", Json.num 10), ("tags", strs ["summary", "overview", "accessible"])]
    [("id", Json.str "executive-summaries"),
      ("metadata", Json.obj [("estimatedReadingTime", Json.num 10),
        ("tags", strs ["summary", "overview", "accessible"])])]
    "executive-summaries" rfl rfl rfl

/-- Claim C2 counterexample to the claim as stated: a section whose id
value is not a key of the static table — a list is not a string key at
all — yet the transform aborts at the membership test (TypeError:
unhashable) instead of passing the section through. -/
theorem claim2_counterexample :
    getKey [("id", Json.arr [])] "id" = some (Json.arr []) ∧
    (∀ s : String, Json.arr [] ≠ Json.str s) ∧
    enhanceSection (.obj [("id", Json.arr [])]) = none :=
  ⟨rfl, fun _ h => Json.noConfusion h, rfl⟩

/-- Claim C2 (amended): a section whose id value is hashable (a string,
number, boolean or null) and is not a key of the static table passes
through unchanged with no error; a section whose id value is unhashable (a
list or a record) aborts the run at the membership test even though such
an id is not a key of the table either. -/
theorem claim2_hashable_unmatched_pass_through :
    (∀ (fields : List (String × Json)) (idVal : Json),
      getKey fields "id" = some idVal → lookupMeta idVal = some none →
      enhanceSection (.obj fields) = some (.obj fields)) ∧
    (∀ (fields : List (String × Json)) (idVal : Json),
      getKey fields "id" = some idVal → lookupMeta idVal = none →
      enhanceSection (.obj fields) = none) :=
  ⟨fun _ _ hid hmd => enhanceSection_unmatched hid hmd,
    fun _ _ hid hmd => enhanceSection_unhashable hid hmd⟩

theorem claim2_witness :
    enhanceSection (.obj [("id", Json.str "intro"), ("content", Json.str "Hello")])
      = some (.obj [("id", Json.str "intro"), ("content", Json.str "Hello")]) ∧
    enhanceSection (.obj [("id", Json.obj [])]) = none :=
  ⟨claim2_hashable_unmatched_pass_through.1
      [("id", Json.str "intro"), ("content", Json.str "Hello")] (.str "intro") rfl rfl,
    claim2_hashable_unmatched_pass_through.2 [("id", Json.obj [])] (.obj []) rfl rfl⟩

/-- Claim C3: every successful output document carries the keys version,
metadata, settings and sections, the output sections list has the same
length as the input sections list, and the section at output position i is
the enhancement of the input section at position i. -/
theorem claim3_envelope_and_alignment
    (fields : List (String × Json)) (out : Json)
    (h : enhanceArticle (.obj fields) = some out) :
    ∃ outFields, out = .obj outFields ∧
      hasKey outFields "version" ∧ hasKey outFields "metadata" ∧
      hasKey outFields "settings" ∧ hasKey outFields "sections" ∧
      ∃ inSecs outSecs,
        getKey fields "sections" = some (.arr inSecs) ∧
        getKey outFields "sections" = some (.arr outSecs) ∧
        outSecs.length = inSecs.length ∧
        ∀ i (hi : i < inSecs.length) (hj : i < outSecs.length),
          enhanceSection (inSecs.get ⟨i, hi⟩) = some (outSecs.get ⟨i, hj⟩) := by
  obtain ⟨title, inSecs, outSecs, ht, hs, hmap, rfl⟩ := enhanceArticle_inv h
  exact ⟨_, rfl, rfl, rfl, rfl, rfl, inSecs, outSecs, hs, rfl,
    mapOption_length hmap, mapOption_get hmap⟩

theorem claim3_witness :
    ∃ outFields,
      Json.obj [("title", Json.str "T"), ("version", Json.str "1.0"),
        ("metadata", docMetadata), ("settings", docSettings),
        ("sections", Json.arr [.obj [("id", Json.str "intro")]])] = .obj outFields ∧
      hasKey outFields "version" ∧ hasKey outFields "metadata" ∧
      hasKey outFields "settings" ∧ hasKey outFields "sections" ∧
      ∃ inSecs outSecs,
        getKey [("title", Json.str "T"),
          ("sections", Json.arr [.obj [("id", Json.str "intro")]])] "sections"
          = some (.arr inSecs) ∧
        getKey outFields "sections" = some (.arr outSecs) ∧
        outSecs.length = inSecs.length ∧
        ∀ i (hi : i < inSecs.length) (hj : i < outSecs.length),
          enhanceSection (inSecs.get ⟨i, hi⟩) = some (outSecs.get ⟨i, hj⟩) :=
  claim3_envelope_and_alignment
    [("title", Json.str "T"), ("sections", Json.arr [.obj [("id", Json.str "intro")]])]
    (.obj [("title", Json.str "T"), ("version", Json.str "1.0"),
      ("metadata", docMetadata), ("settings", docSettings),
      ("sections", Json.arr [.obj [("id", Json.str "intro")]])])
    rfl

/-- Claim C4: for every input section whose table entry has a
chapterNumber, the output type is "chapter" unless the entry also carries
an explicit type, in which case the explicit value wins (it is applied
after the chapter default); the chapter number itself is copied. -/
theorem claim4_chapter_number_sets_type
    (fields md out : List (String × Json)) (s : String) (c : Json)
    (hid : getKey fields "id" = some (.str s))
    (htab : getKey SECTION_METADATA s = some md)
    (h : enhanceSection (.obj fields) = some (.obj out))
    (hc : getKey md "chapterNumber" = some c) :
    getKey out "chapterNumber" = some c ∧
    (∀ ty, getKey md "type" = some ty → getKey out "type" = some ty) ∧
    (getKey md "type" = none → getKey out "type" = some (.str "chapter")) := by
  have hmd : lookupMeta (.str s) = some (some md) := by
    unfold lookupMeta
    dsimp only
    rw [htab]
  obtain ⟨g, hg, hout⟩ := enhanceSection_matched hid hmd h
  obtain rfl : out = g := by injection hout
  exact ⟨mergeMeta_getKey_chapterNumber hg hc,
    fun ty hty => mergeMeta_getKey_type_override hg hty,
    fun hty => mergeMeta_getKey_type_default hg hty hc⟩

theorem claim4_witness :
    getKey [("id", Json.str "chapter-3"), ("type", Json.str "chapter"),
      ("chapterNumber", Json.num 3), ("partNumber", Json.num 2),
      ("metadata", Json.obj [("estimatedReadingTime", Json.num 35),
        ("tags", strs ["theory", "axioms", "principles", "analogies"])]),
      ("keyTakeaways", strs [
        "Conservation laws ensure substrate persistence",
        "Differential persistence: stable things last longer",
        "Persistence is a passive property, not an active force"])]
      "chapterNumber" = some (Json.num 3) ∧
    (∀ ty, getKey [("chapterNumber", Json.num 3), ("partNumber", Json.num 2),
        ("estimatedReadingTime", Json.num 35),
        ("tags", strs ["theory", "axioms", "principles", "analogies"]),
        ("keyTakeaways", strs [
          "Conservation laws ensure substrate persistence",
          "Differential persistence: stable things last longer",
          "Persistence is a passive property, not an active force"])] "type" = some ty →
      getKey [("id", Json.str "chapter-3"), ("type", Json.str "chapter"),
        ("chapterNumber", Json.num 3), ("partNumber", Json.num 2),
        ("metadata", Json.obj [("estimatedReadingTime", Json.num 35),
          ("tags", strs ["theory", "axioms", "principles", "analogies"])]),
        ("keyTakeaways", strs [
          "Conservation laws ensure substrate persistence",
          "Differential persistence: stable things last longer",
          "Persistence is a passive property, not an active force"])] "type" = some ty) ∧
    (getKey [("chapterNumber", Json.num 3), ("partNumber", Json.num 2),
        ("estimatedReadingTime", Json.num 35),
        ("tags", strs ["theory", "axioms", "principles", "analogies"]),
        ("keyTakeaways", strs [
          "Conservation laws ensure substrate persistence",
          "Differential persistence: stable things last longer",
          "Persistence is a passive property, not an active force"])] "type" = none →
      getKey [("id", Json.str "chapter-3"), ("type", Json.str "chapter"),
        ("chapterNumber", Json.num 3), ("partNumber", Json.num 2),
        ("metadata", Json.obj [("estimatedReadingTime", Json.num 35),
          ("tags", strs ["theory", "axioms", "principles", "analogies"])]),
        ("keyTakeaways", strs [
          "Conservation laws ensure substrate persistence",
          "Differential persistence: stable things last longer",
          "Persistence is a passive property, not an active force"])] "type"
        = some (Json.str "chapter")) :=
  claim4_chapter_number_sets_type
    [("id", Json.str "chapter-3")]
    [("chapterNumber", Json.num 3), ("partNumber", Json.num 2),
      ("estimatedReadingTime", Json.num 35),
      ("tags", strs ["theory", "axioms", "principles", "analogies"]),
      ("keyTakeaways", strs [
        "Conservation laws ensure substrate persistence",
        "Differential persistence: stable things last longer",
        "Persistence is a passive property, not an active force"])]
    [("id", Json.str "chapter-3"), ("type", Json.str "chapter"),
      ("chapterNumber", Json.num 3), ("partNumber", Json.num 2),
      ("metadata", Json.obj [("estimatedReadingTime", Json.num 35),
        ("tags", strs ["theory", "axioms", "principles", "analogies"])]),
      ("keyTakeaways", strs [
        "Conservation laws ensure substrate persistence",
        "Differential persistence: stable things last longer",
        "Persistence is a passive property, not an active force"])]
    "chapter-3" (Json.num 3) rfl rfl rfl rfl

/-- Claim C5: augmentation only adds or overwrites fields — every key of
the input section is still a key of the output section — and the
sub-fields of an existing metadata record other than estimatedReadingTime
and tags are unchanged. -/
theorem claim5_additive_only
    (fields out : List (String × Json))
    (h : enhanceSection (.obj fields) = some (.obj out)) :
    (∀ k, hasKey fields k → hasKey out k) ∧
    (∀ m0, getKey fields "metadata" = some (.obj m0) →
      ∃ m1, getKey out "metadata" = some (.obj m1) ∧
        ∀ k, k ≠ "estimatedReadingTime" → k ≠ "tags" →
          getKey m1 k = getKey m0 k) := by
  obtain ⟨idVal, hid, hcase⟩ := enhanceSection_obj_inv h
  rcases hcase with ⟨hmd, hout⟩ | ⟨md, g, hmd, hg, hout⟩
  · obtain rfl : out = fields := by injection hout
    exact ⟨fun k hk => hk, fun m0 hm0 => ⟨m0, hm0, fun k _ _ => rfl⟩⟩
  · obtain rfl : out = g := by injection hout
    constructor
    · intro k hk
      obtain ⟨m, ert, tg, hm, he, ht, rfl⟩ := mergeMeta_inv hg
      exact postSteps_hasKey_of_hasKey
        (ensureMetaKey_hasKey_of_hasKey (preSteps_hasKey_of_hasKey hk))
    · intro m0 hm0
      obtain ⟨m, ert, tg, he, ht, hm4, hmOut⟩ := mergeMeta_metadata hg
      have hpm : getKey (ensureMetaKey (preSteps md fields)) "metadata"
          = some (.obj m0) := by
        apply ensureMetaKey_getKey_of_some
        rw [preSteps_getKey_ne (by decide) (by decide) (by decide)]
        exact hm0
      have hmm : m = m0 := by
        have h2 := hm4.symm.trans hpm
        injection Option.some.inj h2
      subst hmm
      refine ⟨setKey (setKey m "estimatedReadingTime" ert) "tags" tg, hmOut, ?_⟩
      intro k hk1 hk2
      rw [getKey_setKey_ne _ _ (Ne.symm hk2), getKey_setKey_ne _ _ (Ne.symm hk1)]

theorem claim5_witness :
    (∀ k, hasKey [("id", Json.str "glossary"), ("content", Json.str "c"),
        ("metadata", Json.obj [("foo", Json.num 7)])] k →
      hasKey [("id", Json.str "glossary"), ("content", Json.str "c"),
        ("metadata", Json.obj [("foo", Json.num 7),
          ("estimatedReadingTime", Json.num 15),
          ("tags", strs ["reference", "definitions", "terminology"])]),
        ("type", Json.str "glossary")] k) ∧
    (∀ m0, getKey [("id", Json.str "glossary"), ("content", Json.str "c"),
        ("metadata", Json.obj [("foo", Json.num 7)])] "metadata" = some (.obj m0) →
      ∃ m1, getKey [("id", Json.str "glossary"), ("content", Json.str "c"),
        ("metadata", Json.obj [("foo", Json.num 7),
          ("estimatedReadingTime", Json.num 15),
          ("tags", strs ["reference", "definitions", "terminology"])]),
        ("type", Json.str "glossary")] "metadata" = some (.obj m1) ∧
        ∀ k, k ≠ "estimatedReadingTime" → k ≠ "tags" →
          getKey m1 k = getKey m0 k) :=
  claim5_additive_only
    [("id", Json.str "glossary"), ("content", Json.str "c"),
      ("metadata", Json.obj [("foo", Json.num 7)])]
    [("id", Json.str "glossary"), ("content", Json.str "c"),
      ("metadata", Json.obj [("foo", Json.num 7),
        ("estimatedReadingTime", Json.num 15),
        ("tags", strs ["reference", "definitions", "terminology"])]),
      ("type", Json.str "glossary")]
    rfl

/-- Claim C6 counterexample to the claim as stated: no article document
exists whose re-enhanced output differs from the output — the transform is
idempotent on its domain, since every merge write recreates the same
binding in place and the envelope is rebuilt identically. -/
theorem claim6_counterexample :
    ¬ ∃ a out : Json, enhanceArticle a = some out ∧ enhanceArticle out ≠ some out :=
  fun ⟨_, _, h1, h2⟩ => h2 (enhanceArticle_idem h1)

/-- Claim C6 (amended): the transform IS idempotent on its domain — for
every article document it maps to an output, re-running the whole
transform on that output reproduces the output exactly. -/
theorem claim6_idempotent_on_domain (a out : Json)
    (h : enhanceArticle a = some out) : enhanceArticle out = some out :=
  enhanceArticle_idem h

theorem claim6_witness :
    enhanceArticle (.obj [("title", Json.str "T"), ("version", Json.str "1.0"),
      ("metadata", docMetadata), ("settings", docSettings),
      ("sections", Json.arr [])])
      = some (.obj [("title", Json.str "T"), ("version", Json.str "1.0"),
        ("metadata", docMetadata), ("settings", docSettings),
        ("sections", Json.arr [])]) :=
  claim6_idempotent_on_domain
    (.obj [("title", Json.str "T"), ("sections", Json.arr [])])
    (.obj [("title", Json.str "T"), ("version", Json.str "1.0"),
      ("metadata", docMetadata), ("settings", docSettings),
      ("sections", Json.arr [])])
    rfl

/-- Claim C7: the script reads the document from the fixed relative path
article.json and writes the result back to the same path, serialized with
indent 2 and with ensure_ascii disabled (non-ASCII preserved). -/
theorem claim7_file_interface :
    scriptFileInterface.readPath = "article.json" ∧
    scriptFileInterface.writePath = scriptFileInterface.readPath ∧
    scriptFileInterface.indent = 2 ∧
    scriptFileInterface.ensureAscii = false :=
  ⟨rfl, rfl, rfl, rfl⟩

/-- Claim C8: every entry of the static table defines both
estimatedReadingTime and tags, so the two unconditional lookups of the
merge step succeed for every matched section id. -/
theorem claim8_table_mandatory_fields (idVal : Json) (md : List (String × Json))
    (h : lookupMeta idVal = some md) :
    (getKey md "estimatedReadingTime").isSome ∧ (getKey md "tags").isSome :=
  lookupMeta_mandatory h

theorem claim8_witness :
    (getKey [("estimatedReadingTime", Json.num 30),
      ("tags", strs ["technical", "mathematics", "advanced"]),
      ("type", Json.str "appendix")] "estimatedReadingTime").isSome ∧
    (getKey [("estimatedReadingTime", Json.num 30),
      ("tags", strs ["technical", "mathematics", "advanced"]),
      ("type", Json.str "appendix")] "tags").isSome :=
  claim8_table_mandatory_fields (.str "appendices")
    [("estimatedReadingTime", Json.num 30),
      ("tags", strs ["technical", "mathematics", "advanced"]),
      ("type", Json.str "appendix")]
    rfl

/-- Claim C9 counterexample to the claim as stated: two documents with a
title, a sections list, and an id on their only section, whose transform
nevertheless aborts — one section carries a non-record metadata value (the
nested metadata writes raise a TypeError), the other an unhashable
list-valued id (the membership test raises a TypeError). -/
theorem claim9_counterexample :
    (hasKey [("title", Json.str "T"),
      ("sections", Json.arr [.obj [("id", Json.str "glossary"),
        ("metadata", Json.num 5)]])] "title" ∧
    getKey [("title", Json.str "T"),
      ("sections", Json.arr [.obj [("id", Json.str "glossary"),
        ("metadata", Json.num 5)]])] "sections"
      = some (Json.arr [.obj [("id", Json.str "glossary"), ("metadata", Json.num 5)]]) ∧
    hasKey [("id", Json.str "glossary"), ("metadata", Json.num 5)] "id" ∧
    enhanceArticle (.obj [("title", Json.str "T"),
      ("sections", Json.arr [.obj [("id", Json.str "glossary"),
        ("metadata", Json.num 5)]])]) = none) ∧
    (hasKey [("title", Json.str "T"),
      ("sections", Json.arr [.obj [("id", Json.arr [])]])] "title" ∧
    getKey [("title", Json.str "T"),
      ("sections", Json.arr [.obj [("id", Json.arr [])]])] "sections"
      = some (Json.arr [.obj [("id", Json.arr [])]]) ∧
    hasKey [("id", Json.arr [])] "id" ∧
    enhanceArticle (.obj [("title", Json.str "T"),
      ("sections", Json.arr [.obj [("id", Json.arr [])]])]) = none) :=
  ⟨⟨rfl, rfl, rfl, rfl⟩, ⟨rfl, rfl, rfl, rfl⟩⟩

/-- Claim C9 (amended): a document with a title key and a sections list,
each of whose elements is a record carrying an id key with a hashable
value (one the membership test accepts) and whose metadata field — if
present on the section — is itself a record, is transformed without error;
a section without an id, a section with an unhashable (list- or
record-valued) id, or a document without title or sections, aborts the run
with no output. -/
theorem claim9_safety :
    (∀ (fields : List (String × Json)) (secs : List Json),
      hasKey fields "title" →
      getKey fields "sections" = some (.arr secs) →
      (∀ s ∈ secs, ∃ sf, s = .obj sf ∧
        (∃ idv, getKey sf "id" = some idv ∧ (lookupMeta idv).isSome) ∧
        ∀ mv, getKey sf "metadata" = some mv → ∃ mf, mv = .obj mf) →
      (enhanceArticle (.obj fields)).isSome) ∧
    (∀ (fields : List (String × Json)) (secs : List Json) (sf : List (String × Json)),
      getKey fields "sections" = some (.arr secs) → (.obj sf) ∈ secs →
      getKey sf "id" = none → enhanceArticle (.obj fields) = none) ∧
    (∀ (fields : List (String × Json)) (secs : List Json) (sf : List (String × Json))
      (idv : Json),
      getKey fields "sections" = some (.arr secs) → (.obj sf) ∈ secs →
      getKey sf "id" = some idv → lookupMeta idv = none →
      enhanceArticle (.obj fields) = none) ∧
    (∀ fields : List (String × Json), getKey fields "title" = none →
      enhanceArticle (.obj fields) = none) ∧
    (∀ fields : List (String × Json), getKey fields "sections" = none →
      enhanceArticle (.obj fields) = none) := by
  refine ⟨?_, ?_, ?_, ?_, ?_⟩
  · intro fields secs htl hsecs hall
    obtain ⟨title, htv⟩ := Option.isSome_iff_exists.mp htl
    have hsecsSome : ∀ s ∈ secs, (enhanceSection s).isSome := by
      intro s hs
      obtain ⟨sf, rfl, ⟨idv, hidv, hlk⟩, hmf⟩ := hall s hs
      obtain ⟨o, hmd⟩ := Option.isSome_iff_exists.mp hlk
      cases o with
      | none => rw [enhanceSection_unmatched hidv hmd]; rfl
      | some md =>
        obtain ⟨hert, htgs⟩ := lookupMeta_mandatory hmd
        obtain ⟨ert, he⟩ := Option.isSome_iff_exists.mp hert
        obtain ⟨tg, ht⟩ := Option.isSome_iff_exists.mp htgs
        have hmeta : ∃ mf, getKey (ensureMetaKey (preSteps md sf)) "metadata"
            = some (.obj mf) := by
          cases hmm : getKey sf "metadata" with
          | none =>
            refine ⟨[], ?_⟩
            apply ensureMetaKey_getKey_of_none
            rw [preSteps_getKey_ne (by decide) (by decide) (by decide)]
            exact hmm
          | some mv =>
            obtain ⟨mf, rfl⟩ := hmf mv hmm
            refine ⟨mf, ?_⟩
            apply ensureMetaKey_getKey_of_some
            rw [preSteps_getKey_ne (by decide) (by decide) (by decide)]
            exact hmm
        obtain ⟨mf, hm4⟩ := hmeta
        have hms : mergeMeta md sf
            = some (postSteps md (ensureMetaKey (preSteps md sf)) mf ert tg) := by
          unfold mergeMeta
          rw [hm4, he, ht]
        have hsec : enhanceSection (.obj sf)
            = some (.obj (postSteps md (ensureMetaKey (preSteps md sf)) mf ert tg)) := by
          unfold enhanceSection
          dsimp only
          rw [hidv]
          dsimp only
          rw [hmd]
          dsimp only
          rw [hms]
          rfl
        rw [hsec]
        rfl
    obtain ⟨outSecs, houts⟩ := Option.isSome_iff_exists.mp (mapOption_isSome hsecsSome)
    unfold enhanceArticle
    dsimp only
    rw [htv, hsecs]
    dsimp only
    rw [houts]
    rfl
  · intro fields secs sf hsecs hmem hid
    have hsecNone : enhanceSection (.obj sf) = none := by
      unfold enhanceSection
      dsimp only
      rw [hid]
    have hmapNone := mapOption_none_of_mem hmem hsecNone
    unfold enhanceArticle
    dsimp only
    rw [hsecs]
    cases getKey fields "title" with
    | none => rfl
    | some t =>
      dsimp only
      rw [hmapNone]
      rfl
  · intro fields secs sf idv hsecs hmem hidv hlk
    have hmapNone := mapOption_none_of_mem hmem (enhanceSection_unhashable hidv hlk)
    unfold enhanceArticle
    dsimp only
    rw [hsecs]
    cases getKey fields "title" with
    | none => rfl
    | some t =>
      dsimp only
      rw [hmapNone]
      rfl
  · intro fields htl
    unfold enhanceArticle
    dsimp only
    rw [htl]
  · intro fields hsecs
    unfold enhanceArticle
    dsimp only
    rw [hsecs]
    cases getKey fields "title" <;> rfl

theorem claim9_witness :
    (enhanceArticle (.obj [("title", Json.str "T"),
      ("sections", Json.arr [.obj [("id", Json.str "zzz")]])])).isSome ∧
    enhanceArticle (.obj [("title", Json.str "T"),
      ("sections", Json.arr [.obj [("content", Json.str "x")]])]) = none ∧
    enhanceArticle (.obj [("title", Json.str "T"),
      ("sections", Json.arr [.obj [("id", Json.obj [("k", Json.num 1)])]])]) = none ∧
    enhanceArticle (.obj [("sections", Json.arr [])]) = none ∧
    enhanceArticle (.obj [("title", Json.str "T")]) = none := by
  refine ⟨claim9_safety.1 _ [.obj [("id", Json.str "zzz")]] rfl rfl ?_,
    claim9_safety.2.1 _ [.obj [("content", Json.str "x")]] [("content", Json.str "x")]
      rfl (List.mem_singleton.mpr rfl) rfl,
    claim9_safety.2.2.1 _ [.obj [("id", Json.obj [("k", Json.num 1)])]]
      [("id", Json.obj [("k", Json.num 1)])] (.obj [("k", Json.num 1)])
      rfl (List.mem_singleton.mpr rfl) rfl rfl,
    claim9_safety.2.2.2.1 _ rfl,
    claim9_safety.2.2.2.2 _ rfl⟩
  intro s hs
  rw [List.mem_singleton.mp hs]
  exact ⟨[("id", Json.str "zzz")], rfl, ⟨Json.str "zzz", rfl, rfl⟩,
    fun mv hmv => Option.noConfusion hmv⟩

/-- Claim C10: the output document's title equals the input document's
title, and title is the only top-level input field carried into the output
envelope — version, metadata and settings are constants, sections is
recomputed, and every other top-level key of the output is one of these
five. -/
theorem claim10_title_only_carried
    (fields : List (String × Json)) (out : Json)
    (h : enhanceArticle (.obj fields) = some out) :
    ∃ title outSecs,
      getKey fields "title" = some title ∧
      out = .obj [("title", title), ("version", .str "1.0"),
        ("metadata", docMetadata), ("settings", docSettings),
        ("sections", .arr outSecs)] ∧
      (∀ k, k ≠ "title" → k ≠ "version" → k ≠ "metadata" → k ≠ "settings" →
        k ≠ "sections" →
        getKey [("title", title), ("version", Json.str "1.0"),
          ("metadata", docMetadata), ("settings", docSettings),
          ("sections", Json.arr outSecs)] k = none) := by
  obtain ⟨title, inSecs, outSecs, ht, hs, hmap, rfl⟩ := enhanceArticle_inv h
  refine ⟨title, outSecs, ht, rfl, ?_⟩
  intro k h1 h2 h3 h4 h5
  simp [getKey, Ne.symm h1, Ne.symm h2, Ne.symm h3, Ne.symm h4, Ne.symm h5]

theorem claim10_witness :
    ∃ title outSecs,
      getKey [("title", Json.str "Hello"), ("extra", Json.num 1),
        ("sections", Json.arr [])] "title" = some title ∧
      Json.obj [("title", Json.str "Hello"), ("version", Json.str "1.0"),
        ("metadata", docMetadata), ("settings", docSettings),
        ("sections", Json.arr [])]
        = .obj [("title", title), ("version", .str "1.0"),
          ("metadata", docMetadata), ("settings", docSettings),
          ("sections", .arr outSecs)] ∧
      (∀ k, k ≠ "title" → k ≠ "version" → k ≠ "metadata" → k ≠ "settings" →
        k ≠ "sections" →
        getKey [("title", title), ("version", Json.str "1.0"),
          ("metadata", docMetadata), ("settings", docSettings),
          ("sections", Json.arr outSecs)] k = none) :=
  claim10_title_only_carried
    [("title", Json.str "Hello"), ("extra", Json.num 1), ("sections", Json.arr [])]
    (.obj [("title", Json.str "Hello"), ("version", Json.str "1.0"),
      ("metadata", docMetadata), ("settings", docSettings),
      ("sections", Json.arr [])])
    rfl
